import Mathlib

/-!
Shallow embedding of `lsst.ctrl.mpexec.singleQuantumExecutor.SingleQuantumExecutor`
(src/python/lsst/ctrl/mpexec/singleQuantumExecutor.py).

The embedding models the data the executor manipulates (dataset references,
quanta, task nodes, the limited-butler store interface) and the four methods
the claims are about: `checkExistingOutputs`, `updatedQuantumInputs`,
`runQuantum`, `writeMetadata`, plus `_execute` (here `executeOne`) which ties
them together.  Python exceptions become `Except`/error sums; store mutation
(pruning) is made explicit by returning the list of pruned references; store
queries are recorded in a `queried` list so that "no store query happened"
is statable.
-/

namespace CtrlMpexec

/-- A dataset reference: dataset type name plus an opaque data id.
Equality is structural (type + id), matching `DatasetRef` equality by
type + data coordinate in the source's data model. -/
structure DatasetRef where
  datasetTypeName : String
  dataId : Nat
deriving DecidableEq

/-- The store interface used by the executor: `limited_butler.stored(ref)`.
`stored_many` is pointwise application of `stored`. -/
structure LimitedButler where
  stored : DatasetRef → Bool

/-- Models `limited_butler.pruneDatasets(refs, disassociate=True,
unstore=True, purge=True)`: afterwards none of `refs` is stored. -/
def pruneDatasets (b : LimitedButler) (refs : List DatasetRef) : LimitedButler :=
  ⟨fun r => if r ∈ refs then false else b.stored r⟩

/-- A quantum (`lsst.daf.butler.Quantum`): task identity, data id, init
inputs, and ordered mappings from dataset type name to dataset references
for inputs and outputs.  The mappings are association lists to preserve
the ordering of `NamedKeyDict`. -/
structure Quantum where
  taskName : String
  taskClass : String
  dataId : Nat
  initInputs : List DatasetRef
  inputs : List (String × List DatasetRef)
  outputs : List (String × List DatasetRef)
deriving DecidableEq

/-- The task-node fields the executor uses: the label and
`task_node.metadata_output.dataset_type_name`. -/
structure TaskNode where
  label : String
  metadata_output_name : String
deriving DecidableEq

/-- The executor configuration flags read by the modelled methods
(`self.skipExisting`, `self.clobberOutputs`, `self.exitOnKnownError`). -/
structure SQEConfig where
  skipExisting : Bool
  clobberOutputs : Bool
  exitOnKnownError : Bool
deriving DecidableEq

/-- Models `mapping[name]` on a `NamedKeyDict`: lookup by dataset type name;
`none` corresponds to a `KeyError` (a `LookupError`). -/
def lookupName (name : String) : List (String × List DatasetRef) → Option (List DatasetRef)
  | [] => none
  | kv :: rest => if kv.1 = name then some kv.2 else lookupName name rest

/-- Models `chain.from_iterable(quantum.outputs.values())`. -/
def allOutputRefs (q : Quantum) : List DatasetRef :=
  (q.outputs.map Prod.snd).flatten

/-- Exceptions raised by `checkExistingOutputs`:
`metadataUnpack` is the uncaught `KeyError`/`ValueError` from
`[metadata_ref] = quantum.outputs[...]`; the other two are the
`RuntimeError`s for complete resp. partial existing outputs, carrying the
reference lists interpolated into their messages. -/
inductive CheckError where
  | metadataUnpack
  | completeConflict (existingRefs : List DatasetRef)
  | mixedConflict (existingRefs missingRefs : List DatasetRef)
deriving DecidableEq

instance {ε α : Type} [DecidableEq ε] [DecidableEq α] : DecidableEq (Except ε α) := fun a b =>
  match a, b with
  | Except.error e1, Except.error e2 =>
    if h : e1 = e2 then isTrue (h ▸ rfl)
    else isFalse fun hc => h (by injection hc)
  | Except.error _, Except.ok _ => isFalse fun hc => Except.noConfusion hc
  | Except.ok _, Except.error _ => isFalse fun hc => Except.noConfusion hc
  | Except.ok a1, Except.ok a2 =>
    if h : a1 = a2 then isTrue (h ▸ rfl)
    else isFalse fun hc => h (by injection hc)

/-- Result of `checkExistingOutputs`: the returned boolean or the raised
exception, together with the references passed to `pruneDatasets` (store
deletions) and the references whose existence was queried, in order. -/
structure CheckResult where
  result : Except CheckError Bool
  pruned : List DatasetRef
  queried : List DatasetRef
deriving DecidableEq

/-- The part of `checkExistingOutputs` from the `stored_many` call on all
outputs to the final `return False` (source lines 361-403).  `queried0`
holds the references already queried by the metadata short-circuit. -/
def checkCommon (cfg : SQEConfig) (q : Quantum) (b : LimitedButler)
    (queried0 : List DatasetRef) : CheckResult :=
  let allRefs := allOutputRefs q
  let existingRefs := allRefs.filter (fun r => b.stored r)
  let missingRefs := allRefs.filter (fun r => !(b.stored r))
  let queried := queried0 ++ allRefs
  if existingRefs.isEmpty then
    -- By default always execute.
    ⟨Except.ok false, [], queried⟩
  else if missingRefs.isEmpty then
    -- Full outputs exist.
    if cfg.skipExisting then
      ⟨Except.ok true, [], queried⟩
    else if cfg.clobberOutputs then
      -- prune, then fall through to `return False`
      ⟨Except.ok false, existingRefs, queried⟩
    else
      ⟨Except.error (CheckError.completeConflict existingRefs), [], queried⟩
  else
    -- Partial outputs from a failed quantum.
    if cfg.clobberOutputs then
      ⟨Except.ok false, existingRefs, queried⟩
    else
      ⟨Except.error (CheckError.mixedConflict existingRefs missingRefs), [], queried⟩

/-- Models `SingleQuantumExecutor.checkExistingOutputs` (source lines 311-403).
When `skipExisting` is set it first evaluates
`[metadata_ref] = quantum.outputs[task_node.metadata_output.dataset_type_name]`,
which raises if the name is absent (`KeyError`) or the entry does not hold
exactly one reference (`ValueError`); the `metadata_ref is not None` guard
of the source is vacuously true here since references are not optional. -/
def checkExistingOutputs (cfg : SQEConfig) (q : Quantum) (tn : TaskNode)
    (b : LimitedButler) : CheckResult :=
  if cfg.skipExisting then
    match lookupName tn.metadata_output_name q.outputs with
    | none => ⟨Except.error CheckError.metadataUnpack, [], []⟩
    | some refs =>
      match refs with
      | [metadata_ref] =>
        if b.stored metadata_ref then
          ⟨Except.ok true, [], [metadata_ref]⟩
        else
          checkCommon cfg q b [metadata_ref]
      | _ => ⟨Except.error CheckError.metadataUnpack, [], []⟩
  else
    checkCommon cfg q b []

/-- The adjustment hook
(`AdjustQuantumHelper.adjust_in_place` driving the task's `adjustQuantum`):
given the reduced input mapping and the original output mapping it returns
adjusted mappings, or raises `NoWorkFound` (modelled as `Except.error` with
the exception message). -/
abbrev AdjustHook : Type :=
  List (String × List DatasetRef) → List (String × List DatasetRef) →
    Except String (List (String × List DatasetRef) × List (String × List DatasetRef))

/-- The per-dataset-type reduction loop of `updatedQuantumInputs`
(source lines 436-454): each dataset type keeps, in order, exactly those
of its references the store reports as stored. -/
def reduceInputs (b : LimitedButler) (inputs : List (String × List DatasetRef)) :
    List (String × List DatasetRef) :=
  inputs.map (fun kv => (kv.1, kv.2.filter (fun r => b.stored r)))

/-- Models `anyChanges` of `updatedQuantumInputs` (source lines 434, 455-456):
true when some dataset type lost at least one reference. -/
def anyChangesB (b : LimitedButler) (inputs : List (String × List DatasetRef)) : Bool :=
  inputs.any (fun kv => (kv.2.filter (fun r => b.stored r)).length != kv.2.length)

/-- Result of `updatedQuantumInputs`: the new quantum or the propagated
`NoWorkFound`, together with the number of times the adjustment hook was
invoked. -/
structure UpdateResult where
  result : Except String Quantum
  hookCalls : Nat
deriving DecidableEq

/-- Models `SingleQuantumExecutor.updatedQuantumInputs` (source lines 405-477):
reduce every input dataset type to its stored references; if any reference
was dropped, run the adjustment hook on the reduced inputs and the original
outputs (letting `NoWorkFound` propagate); build a new `Quantum` carrying
the original identity fields and init inputs with the helper's mappings. -/
def updatedQuantumInputs (hook : AdjustHook) (b : LimitedButler) (q : Quantum) :
    UpdateResult :=
  let updatedInputs := reduceInputs b q.inputs
  if anyChangesB b q.inputs then
    match hook updatedInputs q.outputs with
    | Except.error msg => ⟨Except.error msg, 1⟩
    | Except.ok (ins, outs) =>
      ⟨Except.ok { taskName := q.taskName, taskClass := q.taskClass, dataId := q.dataId,
                   initInputs := q.initInputs, inputs := ins, outputs := outs }, 1⟩
  else
    ⟨Except.ok { taskName := q.taskName, taskClass := q.taskClass, dataId := q.dataId,
                 initInputs := q.initInputs, inputs := updatedInputs, outputs := q.outputs }, 0⟩

/-- Outcome of the task body call `task.runQuantum(butlerQC, inputRefs,
outputRefs)`: normal return, or one of the exception kinds the executor
classifies.  `NoWorkFound`, `RepeatableQuantumError` and
`InvalidQuantumError` are distinct exception classes in `lsst.pipe.base`;
their `EXIT_CODE` class attribute is carried here as data. -/
inductive TaskOutcome where
  | success
  | noWorkFound (msg : String)
  | repeatableError (exitCode : Nat)
  | invalidQuantumError (exitCode : Nat)
  | otherError (msg : String)
deriving DecidableEq

/-- How `runQuantum` terminates: normal return, `sys.exit(code)`, or an
exception propagating to the caller (the repeatable failure re-raised, or
an unclassified failure). -/
inductive RunResult where
  | normal
  | exited (code : Nat)
  | raisedRepeatable (code : Nat)
  | raisedOther (msg : String)
deriving DecidableEq

/-- Models `SingleQuantumExecutor.runQuantum` (source lines 479-528): invoke the
task body and classify the outcome.  `NoWorkFound` is swallowed (early
exit); `RepeatableQuantumError` exits with its code when
`exitOnKnownError` is set and is re-raised otherwise;
`InvalidQuantumError` always exits with its code. -/
def runQuantum (cfg : SQEConfig) (outcome : TaskOutcome) : RunResult :=
  match outcome with
  | TaskOutcome.success => RunResult.normal
  | TaskOutcome.noWorkFound _ => RunResult.normal
  | TaskOutcome.repeatableError c =>
    if cfg.exitOnKnownError then RunResult.exited c else RunResult.raisedRepeatable c
  | TaskOutcome.invalidQuantumError c => RunResult.exited c
  | TaskOutcome.otherError m => RunResult.raisedOther m

/-- Exceptions escaping `writeMetadata`: the `InvalidQuantumError` raised
from the caught `LookupError` (`KeyError` on missing dataset type name),
or the `ValueError` from `[ref] = refs` when the entry does not hold
exactly one reference — a `ValueError` is not a `LookupError`, so the
`except LookupError` clause does not convert it. -/
inductive WriteError where
  | invalidQuantumConfigMismatch
  | unpackValueError
deriving DecidableEq

/-- Models `SingleQuantumExecutor.writeMetadata` (source lines 530-544): look up
the metadata entry by `task_node.metadata_output.dataset_type_name`,
destructure it as a one-element list, and `put` the metadata under that
reference (the written-to reference is returned here). -/
def writeMetadata (q : Quantum) (tn : TaskNode) : Except WriteError DatasetRef :=
  match lookupName tn.metadata_output_name q.outputs with
  | none => Except.error WriteError.invalidQuantumConfigMismatch
  | some refs =>
    match refs with
    | [ref] => Except.ok ref
    | _ => Except.error WriteError.unpackValueError

/-- A task-metadata record, modelled as the ordered list of `logInfo`
phase names recorded in it (`prep`, `init`, `start`, `end`). -/
abbrev TaskMetadata : Type := List String

/-- A full metadata payload: ordered mapping from key (task label or
`"quantum"`) to a task-metadata record. -/
abbrev FullMetadata : Type := List (String × List String)

/-- How `_execute` terminates when it does not return a quantum: an
exception from `checkExistingOutputs` or `writeMetadata`, a `sys.exit`
(`SystemExit` is not caught by the `except Exception` logger), or a task
exception propagating out. -/
inductive ExecError where
  | checkFailed (e : CheckError)
  | writeFailed (e : WriteError)
  | exitCalled (code : Nat)
  | repeatableRaised (code : Nat)
  | taskRaised (msg : String)
deriving DecidableEq

/-- Observable trace of one `_execute` call: the returned quantum or the
escaping failure, whether the task body was invoked, and the full metadata
payload written via `writeMetadata` (if any). -/
structure ExecTrace where
  result : Except ExecError Quantum
  taskInvoked : Bool
  metadataWritten : Option FullMetadata
deriving DecidableEq

/-- Models `SingleQuantumExecutor._execute` (source lines 200-309), with the task
body's outcome and its reported full metadata supplied as parameters:
run `checkExistingOutputs` (skipping on `True`), reconcile inputs —
on `NoWorkFound` write terminal metadata for the *original* quantum
(the local variable was not rebound when the call raised) and return it —
otherwise run the task body and write the merged metadata for the updated
quantum.  The `quantum` phase record holds `prep`/`end` on the no-work
path and `prep`/`init`/`start`/`end` on the full path. -/
def executeOne (cfg : SQEConfig) (tn : TaskNode) (hook : AdjustHook)
    (taskOut : TaskOutcome) (taskMeta : FullMetadata) (b : LimitedButler)
    (q : Quantum) : ExecTrace :=
  let cr := checkExistingOutputs cfg q tn b
  match cr.result with
  | Except.error e => ⟨Except.error (ExecError.checkFailed e), false, none⟩
  | Except.ok true => ⟨Except.ok q, false, none⟩
  | Except.ok false =>
    let b1 := pruneDatasets b cr.pruned
    match (updatedQuantumInputs hook b1 q).result with
    | Except.error _ =>
      let fullMetadata : FullMetadata := [(tn.label, []), ("quantum", ["prep", "end"])]
      match writeMetadata q tn with
      | Except.error we => ⟨Except.error (ExecError.writeFailed we), false, none⟩
      | Except.ok _ => ⟨Except.ok q, false, some fullMetadata⟩
    | Except.ok q2 =>
      match runQuantum cfg taskOut with
      | RunResult.exited c => ⟨Except.error (ExecError.exitCalled c), true, none⟩
      | RunResult.raisedRepeatable c => ⟨Except.error (ExecError.repeatableRaised c), true, none⟩
      | RunResult.raisedOther m => ⟨Except.error (ExecError.taskRaised m), true, none⟩
      | RunResult.normal =>
        let fullMetadata : FullMetadata :=
          taskMeta ++ [("quantum", ["prep", "init", "start", "end"])]
        match writeMetadata q2 tn with
        | Except.error we => ⟨Except.error (ExecError.writeFailed we), true, none⟩
        | Except.ok _ => ⟨Except.ok q2, true, some fullMetadata⟩

/-- The adjustment hook only removes references: every reference in the
adjusted input mapping already occurs in the input mapping the hook was
given.  `AdjustQuantumHelper.adjust_in_place` enforces this contract in
`lsst.pipe.base` (the spec: the hook "may itself further reduce
inputs/outputs"). -/
def HookOnlyRemoves (hook : AdjustHook) : Prop :=
  ∀ ins outs res, hook ins outs = Except.ok res →
    ∀ kv ∈ res.1, ∀ r ∈ kv.2, ∃ kv0 ∈ ins, r ∈ kv0.2

/-- An adjustment hook that accepts the mappings unchanged. -/
def hookId : AdjustHook := fun ins outs => Except.ok (ins, outs)

/-- An adjustment hook that raises `NoWorkFound` unconditionally. -/
def hookNoWork : AdjustHook := fun _ _ => Except.error "no work"

/-- A butler that stores everything. -/
def bAll : LimitedButler := ⟨fun _ => true⟩

/-- Metadata output reference of the concrete example quantum. -/
def mdRef : DatasetRef := ⟨"t_metadata", 0⟩

/-- Data output reference of the concrete example quantum. -/
def datRef : DatasetRef := ⟨"t_data", 1⟩

/-- Concrete example task node: label `t`, metadata type `t_metadata`. -/
def tnEx : TaskNode := ⟨"t", "t_metadata"⟩

/-- Concrete example quantum: one metadata output and one data output. -/
def qEx : Quantum :=
  { taskName := "t", taskClass := "T", dataId := 3, initInputs := [],
    inputs := [], outputs := [("t_metadata", [mdRef]), ("t_data", [datRef])] }

/-- A butler that stores exactly `mdRef`. -/
def bMdOnly : LimitedButler := ⟨fun r => decide (r = mdRef)⟩

/-- Quantum used against C3: the metadata entry exists but holds two
references. -/
def qTwoMd : Quantum :=
  { taskName := "t", taskClass := "T", dataId := 0, initInputs := [],
    inputs := [], outputs := [("t_metadata", [⟨"t_metadata", 0⟩, ⟨"t_metadata", 1⟩])] }

/-- Concrete quantum with two input references for one dataset type
(data ids 0 and 1) and one output. -/
def qIn2 : Quantum :=
  { taskName := "t", taskClass := "T", dataId := 7, initInputs := [⟨"cfg", 0⟩],
    inputs := [("in", [⟨"in", 0⟩, ⟨"in", 1⟩])], outputs := [("t_metadata", [mdRef])] }

/-- A butler that stores exactly the references with data id 0. -/
def bId0 : LimitedButler := ⟨fun r => decide (r.dataId = 0)⟩

/-- The quantum `qIn2` after reconciliation against `bId0`: the data-id-1 input is gone. -/
def qIn2red : Quantum := { qIn2 with inputs := [("in", [⟨"in", 0⟩])] }

/-- A butler that stores exactly the input reference `⟨"in", 0⟩` (in
particular, none of `qIn2`'s outputs and not its second input). -/
def bIn0 : LimitedButler := ⟨fun r => decide (r = ⟨"in", 0⟩)⟩

-- ------------------------------------------------------------------
-- Theorems
-- ------------------------------------------------------------------

theorem lookupName_mem {name : String} {refs : List DatasetRef}
    {l : List (String × List DatasetRef)} (h : lookupName name l = some refs) :
    (name, refs) ∈ l := by
  induction l with
  | nil => simp [lookupName] at h
  | cons kv rest ih =>
    rw [lookupName] at h
    split at h
    · rename_i hk
      injection h with h2
      subst h2
      subst hk
      exact List.mem_cons_self kv rest
    · exact List.mem_cons_of_mem _ (ih h)

/-- C2: `runQuantum` terminates the process with the invalid-quantum
failure's exit code regardless of `exitOnKnownError`; for a repeatable
failure it exits with the failure's code when `exitOnKnownError` is set
and re-raises the failure to the caller otherwise. -/
theorem c2_runQuantum_failure_classification (cfg : SQEConfig) (c : Nat) :
    runQuantum cfg (TaskOutcome.invalidQuantumError c) = RunResult.exited c
    ∧ (cfg.exitOnKnownError = true →
        runQuantum cfg (TaskOutcome.repeatableError c) = RunResult.exited c)
    ∧ (cfg.exitOnKnownError = false →
        runQuantum cfg (TaskOutcome.repeatableError c) = RunResult.raisedRepeatable c) := by
  refine ⟨rfl, ?_, ?_⟩ <;> intro h <;> simp [runQuantum, h]

theorem c2_witness :
    runQuantum ⟨false, false, true⟩ (TaskOutcome.invalidQuantumError 21) = RunResult.exited 21
    ∧ runQuantum ⟨false, false, true⟩ (TaskOutcome.repeatableError 20) = RunResult.exited 20
    ∧ runQuantum ⟨false, false, false⟩ (TaskOutcome.repeatableError 20)
        = RunResult.raisedRepeatable 20 :=
  ⟨(c2_runQuantum_failure_classification ⟨false, false, true⟩ 21).1,
   (c2_runQuantum_failure_classification ⟨false, false, true⟩ 20).2.1 rfl,
   (c2_runQuantum_failure_classification ⟨false, false, false⟩ 20).2.2 rfl⟩

/-- C3 counterexample: when the quantum's outputs map the metadata
dataset type to two references (not exactly one), `writeMetadata` raises
the unpacking `ValueError` — which is not a `LookupError`, so it is not
converted — instead of the invalid-quantum error the claim requires. -/
theorem c3_counterexample :
    (lookupName tnEx.metadata_output_name qTwoMd.outputs).map List.length = some 2
    ∧ writeMetadata qTwoMd tnEx = Except.error WriteError.unpackValueError
    ∧ writeMetadata qTwoMd tnEx ≠ Except.error WriteError.invalidQuantumConfigMismatch := by
  refine ⟨rfl, rfl, by decide⟩

/-- C3 amended: `writeMetadata` writes to the unique reference of the
task's metadata dataset type when the outputs hold exactly one such
reference; it fails with the invalid-quantum configuration-mismatch error
exactly when the metadata dataset type is absent from the outputs; when
the entry is present with zero or several references the unpacking error
propagates instead. -/
theorem c3_writeMetadata_cases (q : Quantum) (tn : TaskNode) :
    (∀ r : DatasetRef, writeMetadata q tn = Except.ok r ↔
        lookupName tn.metadata_output_name q.outputs = some [r])
    ∧ (writeMetadata q tn = Except.error WriteError.invalidQuantumConfigMismatch ↔
        lookupName tn.metadata_output_name q.outputs = none)
    ∧ (writeMetadata q tn = Except.error WriteError.unpackValueError ↔
        ∃ refs, lookupName tn.metadata_output_name q.outputs = some refs
          ∧ refs.length ≠ 1) := by
  cases hl : lookupName tn.metadata_output_name q.outputs with
  | none =>
    refine ⟨fun r => ?_, ?_, ?_⟩ <;> simp [writeMetadata, hl]
  | some refs =>
    match refs with
    | [] =>
      refine ⟨fun r => ?_, ?_, ?_⟩ <;> simp [writeMetadata, hl]
    | [s] =>
      refine ⟨fun r => ?_, ?_, ?_⟩ <;> simp [writeMetadata, hl]
    | a :: c :: rest =>
      refine ⟨fun r => ?_, ?_, ?_⟩ <;> simp [writeMetadata, hl]

theorem c3_amended_witness :
    writeMetadata qEx tnEx = Except.ok mdRef :=
  ((c3_writeMetadata_cases qEx tnEx).1 mdRef).mpr rfl

/-- C10: with skip-on-existing enabled, a quantum whose outputs do not map
the metadata dataset type to exactly one reference makes
`checkExistingOutputs` raise the unpacking exception before any store
interaction: nothing is queried, nothing is pruned, and no boolean is
returned. -/
theorem c10_skip_unpacks_metadata_first (cfg : SQEConfig) (q : Quantum)
    (tn : TaskNode) (b : LimitedButler) (hskip : cfg.skipExisting = true)
    (hbad : lookupName tn.metadata_output_name q.outputs = none
      ∨ ∃ refs, lookupName tn.metadata_output_name q.outputs = some refs
          ∧ refs.length ≠ 1) :
    checkExistingOutputs cfg q tn b
      = ⟨Except.error CheckError.metadataUnpack, [], []⟩ := by
  rcases hbad with hnone | ⟨refs, hsome, hlen⟩
  · simp [checkExistingOutputs, hskip, hnone]
  · rcases refs with _ | ⟨a, _ | ⟨c, rest⟩⟩
    · simp [checkExistingOutputs, hskip, hsome]
    · simp at hlen
    · simp [checkExistingOutputs, hskip, hsome]

theorem c10_witness :
    checkExistingOutputs ⟨true, false, false⟩ qTwoMd tnEx bAll
      = ⟨Except.error CheckError.metadataUnpack, [], []⟩ :=
  c10_skip_unpacks_metadata_first ⟨true, false, false⟩ qTwoMd tnEx bAll rfl
    (Or.inr ⟨[⟨"t_metadata", 0⟩, ⟨"t_metadata", 1⟩], rfl, by decide⟩)

theorem checkCommon_all_stored (cfg : SQEConfig) (q : Quantum) (b : LimitedButler)
    (queried0 : List DatasetRef) (hne : allOutputRefs q ≠ [])
    (hall : ∀ r ∈ allOutputRefs q, b.stored r = true) :
    checkCommon cfg q b queried0 =
      if cfg.skipExisting then
        ⟨Except.ok true, [], queried0 ++ allOutputRefs q⟩
      else if cfg.clobberOutputs then
        ⟨Except.ok false, allOutputRefs q, queried0 ++ allOutputRefs q⟩
      else
        ⟨Except.error (CheckError.completeConflict (allOutputRefs q)), [],
          queried0 ++ allOutputRefs q⟩ := by
  have hfe : (allOutputRefs q).filter (fun r => b.stored r) = allOutputRefs q :=
    List.filter_eq_self.2 hall
  have hfm : (allOutputRefs q).filter (fun r => !(b.stored r)) = [] := by
    rw [List.filter_eq_nil_iff]
    intro a ha
    simp [hall a ha]
  simp only [checkCommon, hfe, hfm]
  rw [if_neg (by simp [hne]), if_pos (by simp)]

theorem checkCommon_mixed_clobber (cfg : SQEConfig) (q : Quantum) (b : LimitedButler)
    (queried0 : List DatasetRef) (hclob : cfg.clobberOutputs = true)
    (hex : (allOutputRefs q).filter (fun r => b.stored r) ≠ [])
    (hmiss : (allOutputRefs q).filter (fun r => !(b.stored r)) ≠ []) :
    checkCommon cfg q b queried0 =
      ⟨Except.ok false, (allOutputRefs q).filter (fun r => b.stored r),
        queried0 ++ allOutputRefs q⟩ := by
  simp only [checkCommon]
  rw [if_neg (by simp [hex]), if_neg (by simp [hmiss]), if_pos (by simp [hclob])]

/-- C5: all outputs stored, skip-on-existing disabled and clobber disabled:
`checkExistingOutputs` raises the complete-outputs configuration-conflict
error naming exactly the existing (= all) output references, and prunes
nothing, so the store is unchanged.  The hypothesis on the metadata entry
is the data-model invariant that every quantum carries exactly one
designated metadata output; it rules out the degenerate quantum with no
output references at all. -/
theorem c5_complete_conflict_no_writes (cfg : SQEConfig) (q : Quantum) (tn : TaskNode)
    (b : LimitedButler) (hskip : cfg.skipExisting = false)
    (hclob : cfg.clobberOutputs = false)
    (hmd : ∃ m, lookupName tn.metadata_output_name q.outputs = some [m])
    (hall : ∀ r ∈ allOutputRefs q, b.stored r = true) :
    checkExistingOutputs cfg q tn b
      = ⟨Except.error (CheckError.completeConflict (allOutputRefs q)), [],
          allOutputRefs q⟩ := by
  obtain ⟨m, hm⟩ := hmd
  have hmem : m ∈ allOutputRefs q := by
    have h1 := lookupName_mem hm
    have h2 : [m] ∈ q.outputs.map Prod.snd :=
      List.mem_map_of_mem Prod.snd h1
    exact List.mem_flatten.2 ⟨[m], h2, List.mem_singleton.2 rfl⟩
  have hne : allOutputRefs q ≠ [] := List.ne_nil_of_mem hmem
  rw [checkExistingOutputs, if_neg (by simp [hskip]),
    checkCommon_all_stored cfg q b [] hne hall, if_neg (by simp [hskip]),
    if_neg (by simp [hclob])]
  rfl

theorem c5_witness :
    checkExistingOutputs ⟨false, false, false⟩ qEx tnEx bAll
      = ⟨Except.error (CheckError.completeConflict (allOutputRefs qEx)), [],
          allOutputRefs qEx⟩ :=
  c5_complete_conflict_no_writes ⟨false, false, false⟩ qEx tnEx bAll rfl rfl
    ⟨mdRef, rfl⟩ (by decide)

/-- C1: with skip-on-existing enabled and (per the data-model invariant)
a single designated metadata output reference: (a) if the store reports
the metadata reference stored, the check returns true immediately, having
queried only that reference and pruned nothing; (b) if all outputs are
stored, the check returns true and the task body is never invoked by
`_execute`. -/
theorem c1_skip_on_metadata (cfg : SQEConfig) (q : Quantum) (tn : TaskNode)
    (b : LimitedButler) (m : DatasetRef) (hskip : cfg.skipExisting = true)
    (hmd : lookupName tn.metadata_output_name q.outputs = some [m]) :
    (b.stored m = true →
      checkExistingOutputs cfg q tn b = ⟨Except.ok true, [], [m]⟩)
    ∧ ((∀ r ∈ allOutputRefs q, b.stored r = true) →
      (checkExistingOutputs cfg q tn b).result = Except.ok true
      ∧ ∀ (hook : AdjustHook) (taskOut : TaskOutcome) (taskMeta : FullMetadata),
          (executeOne cfg tn hook taskOut taskMeta b q).taskInvoked = false) := by
  have hpart1 : b.stored m = true →
      checkExistingOutputs cfg q tn b = ⟨Except.ok true, [], [m]⟩ := by
    intro hst
    simp [checkExistingOutputs, hskip, hmd, hst]
  refine ⟨hpart1, fun hall => ?_⟩
  have hmem : m ∈ allOutputRefs q := by
    have h1 := lookupName_mem hmd
    have h2 : [m] ∈ q.outputs.map Prod.snd :=
      List.mem_map_of_mem Prod.snd h1
    exact List.mem_flatten.2 ⟨[m], h2, List.mem_singleton.2 rfl⟩
  have hck := hpart1 (hall m hmem)
  refine ⟨by rw [hck], fun hook taskOut taskMeta => ?_⟩
  simp [executeOne, hck]

theorem c1_witness :
    checkExistingOutputs ⟨true, false, false⟩ qEx tnEx bAll
      = ⟨Except.ok true, [], [mdRef]⟩
    ∧ (executeOne ⟨true, false, false⟩ tnEx hookId TaskOutcome.success [] bAll
        qEx).taskInvoked = false :=
  ⟨(c1_skip_on_metadata ⟨true, false, false⟩ qEx tnEx bAll mdRef rfl rfl).1 rfl,
   ((c1_skip_on_metadata ⟨true, false, false⟩ qEx tnEx bAll mdRef rfl rfl).2
      (by decide)).2 hookId TaskOutcome.success []⟩

/-- C4 counterexample: clobber is enabled and a strict nonempty subset of
the outputs (exactly the metadata reference) is stored, yet because
skip-on-existing is also enabled and the stored subset includes the
metadata reference, `checkExistingOutputs` returns true and prunes
nothing, instead of pruning the present subset and returning false as the
claim states. -/
theorem c4_counterexample :
    (⟨true, true, false⟩ : SQEConfig).clobberOutputs = true
    ∧ (allOutputRefs qEx).filter (fun r => bMdOnly.stored r) = [mdRef]
    ∧ (allOutputRefs qEx).filter (fun r => !(bMdOnly.stored r)) = [datRef]
    ∧ checkExistingOutputs ⟨true, true, false⟩ qEx tnEx bMdOnly
        = ⟨Except.ok true, [], [mdRef]⟩ := by
  refine ⟨rfl, by decide, by decide, by decide⟩

/-- C4 amended: for every quantum with a strict nonempty subset of its
output references present in the store and clobber enabled, *provided the
skip-on-existing metadata short-circuit does not fire* (skip disabled, or
the single designated metadata reference is not stored),
`checkExistingOutputs` prunes exactly the present subset of output
references and returns false so execution proceeds. -/
theorem c4_mixed_clobber_prunes_existing (cfg : SQEConfig) (q : Quantum)
    (tn : TaskNode) (b : LimitedButler) (hclob : cfg.clobberOutputs = true)
    (hskip : cfg.skipExisting = false
      ∨ ∃ m, lookupName tn.metadata_output_name q.outputs = some [m]
          ∧ b.stored m = false)
    (hex : (allOutputRefs q).filter (fun r => b.stored r) ≠ [])
    (hmiss : (allOutputRefs q).filter (fun r => !(b.stored r)) ≠ []) :
    (checkExistingOutputs cfg q tn b).result = Except.ok false
    ∧ (checkExistingOutputs cfg q tn b).pruned
        = (allOutputRefs q).filter (fun r => b.stored r) := by
  have hred : ∃ q0, checkExistingOutputs cfg q tn b = checkCommon cfg q b q0 := by
    rcases hskip with hsk | ⟨m, hm, hns⟩
    · exact ⟨[], by rw [checkExistingOutputs, if_neg (by simp [hsk])]⟩
    · by_cases hsk : cfg.skipExisting = true
      · refine ⟨[m], ?_⟩
        simp [checkExistingOutputs, hsk, hm, hns]
      · exact ⟨[], by rw [checkExistingOutputs, if_neg hsk]⟩
  obtain ⟨q0, hq0⟩ := hred
  rw [hq0, checkCommon_mixed_clobber cfg q b q0 hclob hex hmiss]
  exact ⟨rfl, rfl⟩

theorem c4_witness :
    (checkExistingOutputs ⟨false, true, false⟩ qEx tnEx bMdOnly).result
      = Except.ok false
    ∧ (checkExistingOutputs ⟨false, true, false⟩ qEx tnEx bMdOnly).pruned
        = (allOutputRefs qEx).filter (fun r => bMdOnly.stored r) :=
  c4_mixed_clobber_prunes_existing ⟨false, true, false⟩ qEx tnEx bMdOnly rfl
    (Or.inl rfl) (by decide) (by decide)

theorem anyChangesB_eq_true_iff (b : LimitedButler)
    (inputs : List (String × List DatasetRef)) :
    anyChangesB b inputs = true ↔ ∃ kv ∈ inputs, ∃ r ∈ kv.2, b.stored r = false := by
  unfold anyChangesB
  rw [List.any_eq_true]
  constructor
  · rintro ⟨kv, hkv, hne⟩
    have hne2 : (kv.2.filter (fun r => b.stored r)).length ≠ kv.2.length := by
      simpa using hne
    have hnall : ¬ (∀ r ∈ kv.2, b.stored r = true) := fun hc =>
      hne2 (List.filter_length_eq_length.2 hc)
    push_neg at hnall
    obtain ⟨r, hr, hrs⟩ := hnall
    exact ⟨kv, hkv, r, hr, by simpa using hrs⟩
  · rintro ⟨kv, hkv, r, hr, hrs⟩
    refine ⟨kv, hkv, ?_⟩
    have hne2 : (kv.2.filter (fun r => b.stored r)).length ≠ kv.2.length := by
      intro hc
      have := List.filter_length_eq_length.1 hc r hr
      rw [hrs] at this
      simp at this
    simpa using hne2

theorem anyChangesB_of_all_stored (b : LimitedButler)
    {inputs : List (String × List DatasetRef)}
    (h : ∀ kv ∈ inputs, ∀ r ∈ kv.2, b.stored r = true) :
    anyChangesB b inputs = false := by
  rw [← Bool.not_eq_true, anyChangesB_eq_true_iff]
  rintro ⟨kv, hkv, r, hr, hrs⟩
  rw [h kv hkv r hr] at hrs
  simp at hrs

theorem reduceInputs_of_all_stored (b : LimitedButler)
    {inputs : List (String × List DatasetRef)}
    (h : ∀ kv ∈ inputs, ∀ r ∈ kv.2, b.stored r = true) :
    reduceInputs b inputs = inputs := by
  induction inputs with
  | nil => rfl
  | cons kv rest ih =>
    have h1 : kv.2.filter (fun r => b.stored r) = kv.2 :=
      List.filter_eq_self.2 (h kv (List.mem_cons_self _ _))
    have h2 : reduceInputs b rest = rest :=
      ih (fun kv' hkv' => h kv' (List.mem_cons_of_mem _ hkv'))
    simp only [reduceInputs, List.map_cons] at h2 ⊢
    rw [h1, h2]

/-- C6: in `updatedQuantumInputs` the adjustment hook is invoked exactly
once when at least one input reference is absent from the store, and never
when all input references are stored; the reduction never adds input
references (every reduced entry pairs its dataset type with an in-order
sublist of that type's original references, all stored), and it only
removes references absent from the store: entry by entry it keeps the
dataset type and, besides dropping only unstored references while
preserving order, it *retains* every original reference the store reports
as present. -/
theorem c6_adjust_hook_invocation (hook : AdjustHook) (b : LimitedButler)
    (q : Quantum) :
    ((∃ kv ∈ q.inputs, ∃ r ∈ kv.2, b.stored r = false) →
        (updatedQuantumInputs hook b q).hookCalls = 1)
    ∧ ((∀ kv ∈ q.inputs, ∀ r ∈ kv.2, b.stored r = true) →
        (updatedQuantumInputs hook b q).hookCalls = 0)
    ∧ (∀ kv ∈ reduceInputs b q.inputs,
        ∃ refs, (kv.1, refs) ∈ q.inputs ∧ kv.2.Sublist refs
          ∧ ∀ r ∈ kv.2, b.stored r = true)
    ∧ ((reduceInputs b q.inputs).length = q.inputs.length)
    ∧ (∀ i (hi : i < q.inputs.length) (hi2 : i < (reduceInputs b q.inputs).length),
        ((reduceInputs b q.inputs).get ⟨i, hi2⟩).1 = (q.inputs.get ⟨i, hi⟩).1
        ∧ ((reduceInputs b q.inputs).get ⟨i, hi2⟩).2.Sublist (q.inputs.get ⟨i, hi⟩).2
        ∧ (∀ r ∈ ((reduceInputs b q.inputs).get ⟨i, hi2⟩).2, b.stored r = true)
        ∧ (∀ r ∈ (q.inputs.get ⟨i, hi⟩).2, b.stored r = true →
            r ∈ ((reduceInputs b q.inputs).get ⟨i, hi2⟩).2)) := by
  refine ⟨fun hdrop => ?_, fun hall => ?_, fun kv hkv => ?_,
    by simp [reduceInputs], fun i hi hi2 => ?_⟩
  · have hany : anyChangesB b q.inputs = true :=
      (anyChangesB_eq_true_iff b q.inputs).2 hdrop
    rcases hres : hook (reduceInputs b q.inputs) q.outputs with e | ⟨ins, outs⟩ <;>
      simp [updatedQuantumInputs, hany, hres]
  · have hany : anyChangesB b q.inputs = false := anyChangesB_of_all_stored b hall
    simp [updatedQuantumInputs, hany]
  · simp only [reduceInputs, List.mem_map] at hkv
    obtain ⟨kv0, hkv0, rfl⟩ := hkv
    refine ⟨kv0.2, hkv0, List.filter_sublist _, fun r hr => (List.mem_filter.1 hr).2⟩
  · simp only [List.get_eq_getElem, reduceInputs, List.getElem_map]
    exact ⟨trivial, List.filter_sublist _, fun r hr => (List.mem_filter.1 hr).2,
      fun r hr hst => List.mem_filter.2 ⟨hr, hst⟩⟩

theorem c6_witness :
    (updatedQuantumInputs hookId bId0 qIn2).hookCalls = 1
    ∧ (⟨"in", 0⟩ : DatasetRef) ∈ ((reduceInputs bId0 qIn2.inputs).get ⟨0, by decide⟩).2 :=
  ⟨(c6_adjust_hook_invocation hookId bId0 qIn2).1
      ⟨("in", [⟨"in", 0⟩, ⟨"in", 1⟩]), by decide, ⟨"in", 1⟩, by decide, by decide⟩,
   ((c6_adjust_hook_invocation hookId bId0 qIn2).2.2.2.2 0 (by decide) (by decide)).2.2.2
      ⟨"in", 0⟩ (by decide) (by decide)⟩

/-- C9: any quantum returned by `updatedQuantumInputs` carries the
argument's task name, task class, data id and initialization inputs
unchanged; the embedding is purely functional, so the argument quantum
itself is never mutated and only the input/output mappings of the result
may differ. -/
theorem c9_identity_preserved (hook : AdjustHook) (b : LimitedButler)
    (q q1 : Quantum) (h : (updatedQuantumInputs hook b q).result = Except.ok q1) :
    q1.taskName = q.taskName ∧ q1.taskClass = q.taskClass
    ∧ q1.dataId = q.dataId ∧ q1.initInputs = q.initInputs := by
  simp only [updatedQuantumInputs] at h
  split at h
  · rcases hres : hook (reduceInputs b q.inputs) q.outputs with e | ⟨ins, outs⟩ <;>
      rw [hres] at h
    · simp at h
    · injection h with h2
      subst h2
      exact ⟨rfl, rfl, rfl, rfl⟩
  · injection h with h2
    subst h2
    exact ⟨rfl, rfl, rfl, rfl⟩

theorem c9_witness :
    qIn2red.taskName = qIn2.taskName ∧ qIn2red.taskClass = qIn2.taskClass
    ∧ qIn2red.dataId = qIn2.dataId ∧ qIn2red.initInputs = qIn2.initInputs :=
  c9_identity_preserved hookId bId0 qIn2 qIn2red (by decide)

/-- C7 counterexample: the task signals no-work during reconciliation
(one of the two input references is absent, the hook raises
`NoWorkFound`), and `_execute` returns the quantum with its *original*
inputs — which differ from the reduced input mapping, because the local
variable is never rebound when `updatedQuantumInputs` raises.  The claim's
"quantum with the original-reduced inputs" is therefore false: the
reduction is discarded. -/
theorem c7_counterexample :
    executeOne ⟨false, false, false⟩ tnEx hookNoWork TaskOutcome.success [] bIn0 qIn2
      = ⟨Except.ok qIn2, false, some [("t", []), ("quantum", ["prep", "end"])]⟩
    ∧ qIn2.inputs ≠ reduceInputs bIn0 qIn2.inputs :=
  ⟨by decide, by decide⟩

/-- C7 amended: when the adjustment hook signals no-work during input
reconciliation (and the metadata write succeeds), `_execute` returns the
*original* quantum unchanged — the reduced input mapping is discarded —
writes metadata holding exactly an empty record under the task's label and
the prep/end phase timings under the `"quantum"` key, and the task body is
never invoked. -/
theorem c7_nowork_terminal_metadata (cfg : SQEConfig) (tn : TaskNode)
    (hook : AdjustHook) (taskOut : TaskOutcome) (taskMeta : FullMetadata)
    (b : LimitedButler) (q : Quantum) (msg : String) (mref : DatasetRef)
    (hcheck : (checkExistingOutputs cfg q tn b).result = Except.ok false)
    (hupd : (updatedQuantumInputs hook
        (pruneDatasets b (checkExistingOutputs cfg q tn b).pruned) q).result
        = Except.error msg)
    (hwrite : writeMetadata q tn = Except.ok mref) :
    executeOne cfg tn hook taskOut taskMeta b q
      = ⟨Except.ok q, false, some [(tn.label, []), ("quantum", ["prep", "end"])]⟩ := by
  simp only [executeOne, hcheck, hupd, hwrite]

theorem c7_witness :
    executeOne ⟨false, false, false⟩ tnEx hookNoWork TaskOutcome.success [] bIn0 qIn2
      = ⟨Except.ok qIn2, false,
          some [(tnEx.label, []), ("quantum", ["prep", "end"])]⟩ :=
  c7_nowork_terminal_metadata ⟨false, false, false⟩ tnEx hookNoWork
    TaskOutcome.success [] bIn0 qIn2 "no work" mdRef (by decide) (by decide)
    (by decide)

theorem hookId_only_removes : HookOnlyRemoves hookId := by
  intro ins outs res h kv hkv r hr
  injection h with h2
  subst h2
  exact ⟨kv, hkv, hr⟩

/-- C8: input reconciliation is idempotent with respect to a fixed store
state: applied to its own successful result, `updatedQuantumInputs`
removes no further input references, invokes no further adjustment
(hook-call count 0) and returns the same quantum.  The hypothesis on the
hook is the `adjust_in_place` contract enforced in `lsst.pipe.base`: the
adjusted input mapping only keeps references the hook was given. -/
theorem c8_reconciliation_idempotent (hook : AdjustHook) (b : LimitedButler)
    (q q1 : Quantum) (n : Nat) (hhook : HookOnlyRemoves hook)
    (h : updatedQuantumInputs hook b q = ⟨Except.ok q1, n⟩) :
    updatedQuantumInputs hook b q1 = ⟨Except.ok q1, 0⟩ := by
  have hstored : ∀ kv ∈ q1.inputs, ∀ r ∈ kv.2, b.stored r = true := by
    simp only [updatedQuantumInputs] at h
    split at h
    · rcases hres : hook (reduceInputs b q.inputs) q.outputs with e | ⟨ins, outs⟩ <;>
        rw [hres] at h
      · simp at h
      · injection h with h2 h3
        injection h2 with h4
        intro kv hkv r hr
        have hkv2 : kv ∈ ins := by
          rw [← h4] at hkv
          exact hkv
        obtain ⟨kv0, hkv0, hrkv0⟩ := hhook _ _ (ins, outs) hres kv hkv2 r hr
        simp only [reduceInputs, List.mem_map] at hkv0
        obtain ⟨kv1, _, rfl⟩ := hkv0
        exact (List.mem_filter.1 hrkv0).2
    · injection h with h2 h3
      injection h2 with h4
      intro kv hkv r hr
      rw [← h4] at hkv
      simp only [reduceInputs, List.mem_map] at hkv
      obtain ⟨kv1, _, rfl⟩ := hkv
      exact (List.mem_filter.1 hr).2
  have hany : anyChangesB b q1.inputs = false := anyChangesB_of_all_stored b hstored
  have hred : reduceInputs b q1.inputs = q1.inputs := reduceInputs_of_all_stored b hstored
  simp [updatedQuantumInputs, hany, hred]

theorem c8_witness :
    updatedQuantumInputs hookId bId0 qIn2red = ⟨Except.ok qIn2red, 0⟩ :=
  c8_reconciliation_idempotent hookId bId0 qIn2 qIn2red 1 hookId_only_removes
    (by decide)

end CtrlMpexec
